import Mathlib

/-!
Verification of the schema query layer of `github-schema-go`.

The repository ships a set of jq programs (`schema/queries.go`) that are run
by `Schema.Query` / `Schema.runQuery` (`schema/schema.go`, gojq-based) against
a JSON introspection document.  This file gives a shallow embedding of:

* the JSON value alphabet (`Json`),
* the jq primitive operations the shipped programs use (field access,
  iteration, addition, `length`, slicing, `join`, numeric comparison),
* the recursive `formatType` jq function (general jq recursion is embedded
  with an explicit fuel parameter),
* each shipped jq program as a Lean function from a document to the list of
  values the program produces,
* the Go-side result collapsing (`Schema.Query`) and the map-assertion of
  `Schema.runQuery`, and the sorted variable-binding extraction.

The regex matcher used by jq `test(...; "i")` lives in the external engine
(gojq/oniguruma), so the embedding is parameterized by an abstract match
predicate `test : String → String → Bool`, exactly the capability boundary
the code draws.
-/

/-- JSON values, as produced by unmarshalling into `interface{}`.
Numbers are modelled as integers (the schema documents and all literals in
the shipped queries are integral; no claim depends on float behaviour). -/
inductive Json where
  | null : Json
  | bool (b : Bool) : Json
  | num (n : Int) : Json
  | str (s : String) : Json
  | arr (elems : List Json) : Json
  | obj (fields : List (String × Json)) : Json

mutual
/-- Structural equality test on JSON values (the derived handler does not
support nested inductives, so it is written out, mutually with its list
forms, with every constructor pair enumerated). -/
def Json.beq : Json → Json → Bool
  | .null, .null => true
  | .null, .bool _ => false
  | .null, .num _ => false
  | .null, .str _ => false
  | .null, .arr _ => false
  | .null, .obj _ => false
  | .bool _, .null => false
  | .bool a, .bool b => a == b
  | .bool _, .num _ => false
  | .bool _, .str _ => false
  | .bool _, .arr _ => false
  | .bool _, .obj _ => false
  | .num _, .null => false
  | .num _, .bool _ => false
  | .num a, .num b => a == b
  | .num _, .str _ => false
  | .num _, .arr _ => false
  | .num _, .obj _ => false
  | .str _, .null => false
  | .str _, .bool _ => false
  | .str _, .num _ => false
  | .str a, .str b => a == b
  | .str _, .arr _ => false
  | .str _, .obj _ => false
  | .arr _, .null => false
  | .arr _, .bool _ => false
  | .arr _, .num _ => false
  | .arr _, .str _ => false
  | .arr a, .arr b => Json.beqList a b
  | .arr _, .obj _ => false
  | .obj _, .null => false
  | .obj _, .bool _ => false
  | .obj _, .num _ => false
  | .obj _, .str _ => false
  | .obj _, .arr _ => false
  | .obj a, .obj b => Json.beqObj a b
def Json.beqList : List Json → List Json → Bool
  | [], [] => true
  | [], _ :: _ => false
  | _ :: _, [] => false
  | x :: xs, y :: ys => Json.beq x y && Json.beqList xs ys
def Json.beqObj : List (String × Json) → List (String × Json) → Bool
  | [], [] => true
  | [], _ :: _ => false
  | _ :: _, [] => false
  | (k1, v1) :: xs, (k2, v2) :: ys => k1 == k2 && Json.beq v1 v2 && Json.beqObj xs ys
end

theorem Json.beq_iff : ∀ a b, Json.beq a b = true ↔ a = b := by
  intro a b
  induction a, b using Json.beq.induct
  case motive_2 l1 l2 => exact Json.beqObj l1 l2 = true ↔ l1 = l2
  case motive_3 l1 l2 => exact Json.beqList l1 l2 = true ↔ l1 = l2
  all_goals simp_all [Json.beq, Json.beqList, Json.beqObj]

instance : DecidableEq Json := fun a b =>
  decidable_of_iff (Json.beq a b = true) (Json.beq_iff a b)

instance [DecidableEq ε] [DecidableEq α] : DecidableEq (Except ε α) :=
  fun a b =>
    match a, b with
    | .ok x, .ok y => decidable_of_iff (x = y) (by simp)
    | .error e, .error f => decidable_of_iff (e = f) (by simp)
    | .ok _, .error _ => isFalse (by simp)
    | .error _, .ok _ => isFalse (by simp)

/-- jq field access `.k`, total form: on objects the value (or `null` when
the key is absent), on anything else `null`.  Used only where the source
guards the input to be an object (or where `null` propagation matches jq). -/
def Json.field : Json → String → Json
  | .obj kvs, k =>
    match kvs.find? (fun kv => kv.1 = k) with
    | some kv => kv.2
    | none => .null
  | _, _ => .null

/-- jq field access `.k` with jq's error behaviour: objects yield the value
(or `null` for a missing key), `null` yields `null`, anything else is a
runtime error. -/
def Json.fieldE : Json → String → Except String Json
  | .obj kvs, k =>
    .ok (match kvs.find? (fun kv => kv.1 = k) with
         | some kv => kv.2
         | none => .null)
  | .null, _ => .ok .null
  | _, _ => .error "cannot index with string key"

/-- jq truthiness: everything except `null` and `false` is truthy. -/
def Json.truthy : Json → Bool
  | .null => false
  | .bool false => false
  | _ => true

/-- Is this value an object? -/
def Json.isObjB : Json → Bool
  | .obj _ => true
  | _ => false

/-- Is this value a string? -/
def Json.isStr : Json → Bool
  | .str _ => true
  | _ => false

/-- Is this value an array? -/
def Json.isArr : Json → Bool
  | .arr _ => true
  | _ => false

/-- Elements of an array value (`[]` for non-arrays). -/
def Json.elems : Json → List Json
  | .arr l => l
  | _ => []

/-- jq addition `+`, restricted to the cases the shipped programs can reach:
`null` is the identity, strings/arrays concatenate, numbers add; any other
combination is a jq runtime error. -/
def jqAdd : Json → Json → Except String Json
  | .null, b => .ok b
  | a, .null => .ok a
  | .str a, .str b => .ok (.str (a ++ b))
  | .arr a, .arr b => .ok (.arr (a ++ b))
  | .num a, .num b => .ok (.num (a + b))
  | _, _ => .error "cannot be added"

/-- jq `length`: codepoint count of strings, element count of arrays, key
count of objects, `0` for `null`, absolute value for numbers, error for
booleans. -/
def jqLength : Json → Except String Json
  | .null => .ok (.num 0)
  | .str s => .ok (.num s.length)
  | .arr l => .ok (.num l.length)
  | .obj kvs => .ok (.num kvs.length)
  | .num n => .ok (.num n.natAbs)
  | .bool _ => .error "boolean has no length"

/-- jq comparison `x > m` against a numeric literal `m`, following jq's total
order `null < false < true < numbers < strings < arrays < objects`. -/
def jqGtNum : Json → Int → Bool
  | .num n, m => m < n
  | .null, _ => false
  | .bool _, _ => false
  | _, _ => true

/-- jq slice `.[0:n]` with start 0 (the only form the shipped programs use):
first `n` codepoints of a string, first `n` elements of an array, `null`
passes through, anything else errors. -/
def jqSlice0 : Json → Nat → Except String Json
  | .str s, n => .ok (.str (String.mk (s.toList.take n)))
  | .arr l, n => .ok (.arr (l.take n))
  | .null, _ => .ok .null
  | _, _ => .error "cannot be sliced"

/-- jq iteration `.[]`: elements of an array, values of an object, runtime
error otherwise. -/
def jqIterate : Json → Except String (List Json)
  | .arr l => .ok l
  | .obj kvs => .ok (kvs.map Prod.snd)
  | _ => .error "cannot iterate"

/-- jq optional iteration `.[]?`: like `.[]` but produces nothing instead of
erroring. -/
def jqIterateOpt : Json → List Json
  | .arr l => l
  | .obj kvs => kvs.map Prod.snd
  | _ => []

/-- jq array index `.[i]`: element (or `null` past the end) for arrays,
`null` input passes through, error otherwise. -/
def jqIndex : Json → Nat → Except String Json
  | .arr l, i => .ok ((l.get? i).getD .null)
  | .null, _ => .ok .null
  | _, _ => .error "cannot index with number"

/-- jq `test(pattern; "i")` where the regex engine itself is external: the
abstract case-insensitive match predicate `test` is applied to string inputs,
anything else is a jq runtime error. -/
def jqTest (test : String → String → Bool) (pattern : String) :
    Json → Except String Bool
  | .str s => .ok (test pattern s)
  | _ => .error "cannot match non-string"

/-- One element of jq `join`: strings pass through, `null` becomes the empty
string, numbers and booleans are stringified, arrays and objects error. -/
def toJoinStr : Json → Except String String
  | .null => .ok ""
  | .str s => .ok s
  | .bool b => .ok (toString b)
  | .num n => .ok (toString n)
  | _ => .error "cannot be joined"

/-- jq `join(sep)` over a produced list of values. -/
def joinStrs (sep : String) : List Json → Except String String
  | [] => .ok ""
  | [v] => toJoinStr v
  | v :: w :: rest => do
    let s ← toJoinStr v
    let r ← joinStrs sep (w :: rest)
    .ok (s ++ sep ++ r)

/-- jq `join(sep)` returning a JSON string. -/
def jqJoin (sep : String) (l : List Json) : Except String Json := do
  let s ← joinStrs sep l
  .ok (.str s)

/-- Reduction of `Except` bind on a success value. -/
theorem bindOkE (a : α) (f : α → Except String β) :
    (Except.ok a >>= f) = f a := rfl

/-- Reduction of `Except` bind on an error value. -/
theorem bindErrE (e : String) (f : α → Except String β) :
    ((Except.error e : Except String α) >>= f) = .error e := rfl

/-- Effectful map over a list in the `Except` monad (first error aborts). -/
def mapME (f : α → Except String β) : List α → Except String (List β)
  | [] => .ok []
  | x :: rest => do
    let y ← f x
    let ys ← mapME f rest
    .ok (y :: ys)

/-- Effectful filter over a list in the `Except` monad. -/
def filterME (p : α → Except String Bool) : List α → Except String (List α)
  | [] => .ok []
  | x :: rest => do
    let b ← p x
    let ys ← filterME p rest
    .ok (if b then x :: ys else ys)

/-- The recursive jq function `formatType` from `typeQuery`/`mutationQuery`
(`schema/queries.go`): a `NON_NULL` object formats its `ofType` and appends
`!`, a `LIST` object formats its `ofType` and wraps it in brackets, any other
object yields `.name // .kind`, and a non-object is returned unchanged.
jq recursion is unbounded; the embedding spends one unit of `fuel` per
recursive call. -/
def formatType : Nat → Json → Except String Json
  | 0, _ => .error "formatType: out of fuel"
  | fuel + 1, j =>
    match j with
    | .obj kvs =>
      if (Json.obj kvs).field "kind" = .str "NON_NULL" then do
        let inner ← formatType fuel ((Json.obj kvs).field "ofType")
        jqAdd inner (.str "!")
      else if (Json.obj kvs).field "kind" = .str "LIST" then do
        let inner ← formatType fuel ((Json.obj kvs).field "ofType")
        let l ← jqAdd (.str "[") inner
        jqAdd l (.str "]")
      else
        .ok (if ((Json.obj kvs).field "name").truthy
             then (Json.obj kvs).field "name"
             else (Json.obj kvs).field "kind")
    | j => .ok j

/-- Well-formed type-reference chains: `NON_NULL` and `LIST` wrapper nodes
terminating in a named type (whose `name` may be absent, falling back to
`kind`). -/
inductive TypeRef where
  | nonNull (t : TypeRef) : TypeRef
  | list (t : TypeRef) : TypeRef
  | named (name : Option String) (kind : String) : TypeRef
deriving DecidableEq

/-- The introspection JSON encoding of a type-reference chain. -/
def TypeRef.toJson : TypeRef → Json
  | .nonNull t => .obj [("kind", .str "NON_NULL"), ("name", .null), ("ofType", t.toJson)]
  | .list t => .obj [("kind", .str "LIST"), ("name", .null), ("ofType", t.toJson)]
  | .named (some n) kind => .obj [("kind", .str kind), ("name", .str n), ("ofType", .null)]
  | .named none kind => .obj [("kind", .str kind), ("name", .null), ("ofType", .null)]

/-- The canonical bracket/bang string of a chain (`[T!]!` and friends). -/
def TypeRef.spec : TypeRef → String
  | .nonNull t => t.spec ++ "!"
  | .list t => "[" ++ t.spec ++ "]"
  | .named (some n) _ => n
  | .named none kind => kind

/-- Number of nodes along the wrapper chain (the recursion depth
`formatType` needs). -/
def TypeRef.depth : TypeRef → Nat
  | .nonNull t => t.depth + 1
  | .list t => t.depth + 1
  | .named _ _ => 1

/-- Well-formedness: the terminal node's `kind` is a concrete kind, not one
of the wrapper kinds (otherwise the encoding would be read as a wrapper). -/
def TypeRef.wfb : TypeRef → Bool
  | .nonNull t => t.wfb
  | .list t => t.wfb
  | .named _ kind => decide (kind ≠ "NON_NULL") && decide (kind ≠ "LIST")

/-- Is the root of the chain a `NON_NULL` wrapper? -/
def TypeRef.isNonNull : TypeRef → Bool
  | .nonNull _ => true
  | _ => false

/-- `formatType` computes the canonical bracket/bang string on every encoded
well-formed chain, given enough fuel. -/
theorem formatType_toJson (t : TypeRef) (fuel : Nat)
    (hwf : t.wfb = true) (hfuel : t.depth ≤ fuel) :
    formatType fuel t.toJson = .ok (.str t.spec) := by
  induction t generalizing fuel with
  | nonNull t ih =>
    cases fuel with
    | zero => simp [TypeRef.depth] at hfuel
    | succ fuel =>
      have ht : formatType fuel t.toJson = .ok (.str t.spec) :=
        ih fuel (by simpa [TypeRef.wfb] using hwf)
          (Nat.le_of_succ_le_succ (by simpa [TypeRef.depth] using hfuel))
      simp [formatType, TypeRef.toJson, Json.field, ht, jqAdd, TypeRef.spec, bindOkE]
  | list t ih =>
    cases fuel with
    | zero => simp [TypeRef.depth] at hfuel
    | succ fuel =>
      have ht : formatType fuel t.toJson = .ok (.str t.spec) :=
        ih fuel (by simpa [TypeRef.wfb] using hwf)
          (Nat.le_of_succ_le_succ (by simpa [TypeRef.depth] using hfuel))
      simp [formatType, TypeRef.toJson, Json.field, ht, jqAdd, TypeRef.spec, bindOkE]
  | named name kind =>
    cases fuel with
    | zero => simp [TypeRef.depth] at hfuel
    | succ fuel =>
      simp only [TypeRef.wfb, Bool.and_eq_true, decide_eq_true_eq] at hwf
      cases name with
      | some n =>
        simp [formatType, TypeRef.toJson, Json.field, hwf.1, hwf.2,
          Json.truthy, TypeRef.spec]
      | none =>
        simp [formatType, TypeRef.toJson, Json.field, hwf.1, hwf.2,
          Json.truthy, TypeRef.spec]

/-- The path `.data.__schema.types[]` shared by every shipped query. -/
def docTypes (doc : Json) : Except String (List Json) := do
  let d ← doc.fieldE "data"
  let s ← d.fieldE "__schema"
  let ts ← s.fieldE "types"
  jqIterate ts

/-- The `description` transform of `searchQuery`: a non-null description of
jq-length above 100 is sliced to its first 100 characters with `"..."`
appended; otherwise the description passes through unchanged. -/
def truncDescription (d : Json) : Except String Json :=
  if d = Json.null then .ok d
  else do
    let len ← jqLength d
    if jqGtNum len 100 then do
      let s ← jqSlice0 d 100
      jqAdd s (.str "...")
    else
      .ok d

/-- One step of `searchQuery`’s inner pipeline
`select(.name | test($pattern; "i")) | {name, kind, description: ...}`:
the list of values (zero or one) produced for one element of the type
list. -/
def searchSelectEntry (test : String → String → Bool) (pattern : String)
    (t : Json) : Except String (List Json) := do
  let n ← t.fieldE "name"
  let m ← jqTest test pattern n
  if m then do
    let k ← t.fieldE "kind"
    let d ← t.fieldE "description"
    let d2 ← truncDescription d
    .ok [Json.obj [("name", n), ("kind", k), ("description", d2)]]
  else .ok []

/-- The `searchQuery` jq program: collect the matching type entries, then
wrap them as `{count: length, pattern: $pattern, results: .}` (a single
produced value). -/
def searchQueryRun (test : String → String → Bool) (doc : Json)
    (pattern : String) : Except String (List Json) := do
  let ts ← docTypes doc
  let lists ← mapME (searchSelectEntry test pattern) ts
  let entries := lists.flatten
  .ok [Json.obj [("count", .num entries.length), ("pattern", .str pattern),
                 ("results", .arr entries)]]

/-- `typeQuery`’s argument projection
`{name, description, type: (.type | formatType)}`. -/
def formatFieldArg (fuel : Nat) (a : Json) : Except String Json := do
  let n ← a.fieldE "name"
  let d ← a.fieldE "description"
  let ty ← a.fieldE "type"
  let ft ← formatType fuel ty
  .ok (.obj [("name", n), ("description", d), ("type", ft)])

/-- `typeQuery`’s field projection: name, description, formatted type, and
the argument list when `(.args | length) > 0`, else `null`. -/
def formatTypeField (fuel : Nat) (f : Json) : Except String Json := do
  let n ← f.fieldE "name"
  let d ← f.fieldE "description"
  let ty ← f.fieldE "type"
  let ft ← formatType fuel ty
  let args ← f.fieldE "args"
  let argLen ← jqLength args
  let arguments ←
    if jqGtNum argLen 0 then do
      let l ← jqIterate args
      let out ← mapME (formatFieldArg fuel) l
      .ok (Json.arr out)
    else .ok Json.null
  .ok (.obj [("name", n), ("description", d), ("type", ft),
             ("arguments", arguments)])

/-- `typeQuery`’s input-field projection: name, description, formatted type,
and `required: (.type.kind == "NON_NULL")`. -/
def formatInputField (fuel : Nat) (f : Json) : Except String Json := do
  let n ← f.fieldE "name"
  let d ← f.fieldE "description"
  let ty ← f.fieldE "type"
  let ft ← formatType fuel ty
  let k ← ty.fieldE "kind"
  .ok (.obj [("name", n), ("description", d), ("type", ft),
             ("required", .bool (k = .str "NON_NULL"))])

/-- `typeQuery`’s enum-value projection `{name, description}`. -/
def formatEnumValue (e : Json) : Except String Json := do
  let n ← e.fieldE "name"
  let d ← e.fieldE "description"
  .ok (.obj [("name", n), ("description", d)])

/-- The object built by `typeQuery` for one matched type: name, kind,
description, and the three optional lists, each `null` (not `[]`) when
the source object lacks the property. -/
def typeResult (fuel : Nat) (t : Json) : Except String Json := do
  let n ← t.fieldE "name"
  let k ← t.fieldE "kind"
  let d ← t.fieldE "description"
  let fieldsJ ← t.fieldE "fields"
  let fields ←
    if fieldsJ.truthy then do
      let fs ← jqIterate fieldsJ
      let out ← mapME (formatTypeField fuel) fs
      .ok (Json.arr out)
    else .ok Json.null
  let inputJ ← t.fieldE "inputFields"
  let inputFields ←
    if inputJ.truthy then do
      let fs ← jqIterate inputJ
      let out ← mapME (formatInputField fuel) fs
      .ok (Json.arr out)
    else .ok Json.null
  let enumJ ← t.fieldE "enumValues"
  let enumValues ←
    if enumJ.truthy then do
      let es ← jqIterate enumJ
      let out ← mapME formatEnumValue es
      .ok (Json.arr out)
    else .ok Json.null
  .ok (.obj [("type", .obj [("name", n), ("kind", k), ("description", d),
             ("fields", fields), ("inputFields", inputFields),
             ("enumValues", enumValues)])])

/-- The `typeQuery` jq program: one value per type whose `name` equals the
`$type` variable. -/
def typeQueryRun (fuel : Nat) (doc : Json) (typeName : String) :
    Except String (List Json) := do
  let ts ← docTypes doc
  let matched ← filterME
    (fun t => do
      let n ← t.fieldE "name"
      .ok (decide (n = Json.str typeName))) ts
  mapME (typeResult fuel) matched

/-- One bullet line of `mutationQuery`’s synthesized description:
`"- " + .name + ": " + (.type | formatType)` plus `" (required)"` when the
field’s type kind is `NON_NULL`, plus the indented description when
truthy. -/
def bulletLine (fuel : Nat) (f : Json) : Except String Json := do
  let n ← f.fieldE "name"
  let ty ← f.fieldE "type"
  let ft ← formatType fuel ty
  let k ← ty.fieldE "kind"
  let d ← f.fieldE "description"
  let b1 ← jqAdd (.str "- ") n
  let b2 ← jqAdd b1 (.str ": ")
  let b3 ← jqAdd b2 ft
  let b4 ← jqAdd b3 (if k = .str "NON_NULL" then .str " (required)" else .str "")
  let tl ← if d.truthy then jqAdd (.str "\n  ") d else .ok (Json.str "")
  jqAdd b4 tl

/-- The values `mutationQuery` produces for one bound `$mut` field: either
the synthesized single-input branch (when `$mut.args[0].type.ofType.name`
is truthy, one value per type with that name) or the plain per-argument
branch. -/
def mutationOutput (fuel : Nat) (doc : Json) (mutObj : Json) :
    Except String (List Json) := do
  let args ← mutObj.fieldE "args"
  let arg0 ← jqIndex args 0
  let argTy ← arg0.fieldE "type"
  let ofTy ← argTy.fieldE "ofType"
  let inName ← ofTy.fieldE "name"
  if inName.truthy then do
    let ts ← docTypes doc
    let inputTypes ← filterME
      (fun t => do
        let n ← t.fieldE "name"
        .ok (decide (n = inName))) ts
    mapME (fun inputType => do
      let mutName ← mutObj.fieldE "name"
      let mutDesc ← mutObj.fieldE "description"
      let argName ← arg0.fieldE "name"
      let argDesc ← arg0.fieldE "description"
      let argFmt ← formatType fuel argTy
      let itName ← inputType.fieldE "name"
      let ifJ ← inputType.fieldE "inputFields"
      let ifs ← jqIterate ifJ
      let bullets ← mapME (bulletLine fuel) ifs
      let joined ← jqJoin "\n" bullets
      let d1 ← jqAdd argDesc (.str "\n\nInput object '")
      let d2 ← jqAdd d1 itName
      let d3 ← jqAdd d2 (.str "' has the following fields:\n")
      let desc ← jqAdd d3 joined
      let argKind ← argTy.fieldE "kind"
      .ok (Json.obj [("mutation", .obj [("name", mutName),
        ("description", mutDesc),
        ("inputs", .arr [Json.obj [("name", argName), ("type", argFmt),
          ("description", desc),
          ("required", .bool (argKind = .str "NON_NULL"))]])])])) inputTypes
  else do
    let argsL ← jqIterate args
    let inputs ← mapME (fun a => do
      let n ← a.fieldE "name"
      let ty ← a.fieldE "type"
      let ft ← formatType fuel ty
      let d ← a.fieldE "description"
      let k ← ty.fieldE "kind"
      .ok (Json.obj [("name", n), ("type", ft), ("description", d),
        ("required", .bool (k = .str "NON_NULL"))])) argsL
    let mutName ← mutObj.fieldE "name"
    let mutDesc ← mutObj.fieldE "description"
    .ok [Json.obj [("mutation", .obj [("name", mutName),
      ("description", mutDesc), ("inputs", .arr inputs)])]]

/-- The `mutationQuery` jq program: bind `$mut` to each field of the
`Mutation` type whose name equals `$mutation`, and produce
`mutationOutput` for each binding. -/
def mutationQueryRun (fuel : Nat) (doc : Json) (mutation : String) :
    Except String (List Json) := do
  let ts ← docTypes doc
  let mutTypes ← filterME
    (fun t => do
      let n ← t.fieldE "name"
      .ok (decide (n = Json.str "Mutation"))) ts
  let fieldLists ← mapME
    (fun t => do
      let fs ← t.fieldE "fields"
      jqIterate fs) mutTypes
  let muts ← filterME
    (fun f => do
      let n ← f.fieldE "name"
      .ok (decide (n = Json.str mutation))) fieldLists.flatten
  let outs ← mapME (mutationOutput fuel doc) muts
  .ok outs.flatten

/-- The inline (single-unwrapping) type rendering of `fieldSearchQuery`:
`NON_NULL` yields `.type.ofType.name + "!"`, `LIST` yields
`"[" + (.type.ofType.name // .type.ofType.kind) + "]"`, anything else
yields `.type.name` unchanged — no recursion. -/
def fieldSearchEntryType (f : Json) : Except String Json := do
  let ty ← f.fieldE "type"
  let k ← ty.fieldE "kind"
  if k = .str "NON_NULL" then do
    let ofTy ← ty.fieldE "ofType"
    let n ← ofTy.fieldE "name"
    jqAdd n (.str "!")
  else if k = .str "LIST" then do
    let ofTy ← ty.fieldE "ofType"
    let n ← ofTy.fieldE "name"
    let k2 ← ofTy.fieldE "kind"
    let nk := if n.truthy then n else k2
    let s1 ← jqAdd (.str "[") nk
    jqAdd s1 (.str "]")
  else
    ty.fieldE "name"

/-- The values (zero or one) `fieldSearchQuery` produces for one field of a
type: `{name, type, description}` when the field name matches. -/
def fieldSearchEntry (test : String → String → Bool) (pattern : String)
    (f : Json) : Except String (List Json) := do
  let n ← f.fieldE "name"
  let m ← jqTest test pattern n
  if m then do
    let tyStr ← fieldSearchEntryType f
    let d ← f.fieldE "description"
    .ok [Json.obj [("name", n), ("type", tyStr), ("description", d)]]
  else .ok []

/-- The per-type object of `fieldSearchQuery`
(`{type: .name, kind: .kind, fields: [...]}` kept only when
`.fields | length > 0`). -/
def fieldSearchType (test : String → String → Bool) (pattern : String)
    (t : Json) : Except String (List Json) := do
  let n ← t.fieldE "name"
  let k ← t.fieldE "kind"
  let fsJ ← t.fieldE "fields"
  let entLists ← mapME (fieldSearchEntry test pattern) (jqIterateOpt fsJ)
  let ents := entLists.flatten
  let entsLen ← jqLength (.arr ents)
  if jqGtNum entsLen 0 then
    .ok [Json.obj [("type", n), ("kind", k), ("fields", .arr ents)]]
  else .ok []

/-- The `fieldSearchQuery` jq program: a single produced value, the array of
per-type groups with at least one matching field. -/
def fieldSearchQueryRun (test : String → String → Bool) (doc : Json)
    (pattern : String) : Except String (List Json) := do
  let ts ← docTypes doc
  let lists ← mapME (fieldSearchType test pattern) ts
  .ok [Json.arr lists.flatten]

/-- The result collapsing of `Schema.Query` (`schema/schema.go`): zero
produced values yield Go `nil` (JSON `null`), exactly one yields that value
itself, two or more yield the slice of values in production order. -/
def collapse : List Json → Json
  | [] => .null
  | [v] => v
  | vs => .arr vs

/-- The collection loop of `Schema.Query`: gojq yields a stream of values,
and any error element aborts the whole call. -/
def collectResults : List (Except String Json) → Except String (List Json)
  | [] => .ok []
  | .error e :: _ => .error ("jq execution error: " ++ e)
  | .ok v :: rest => do
    let vs ← collectResults rest
    .ok (v :: vs)

/-- `Schema.Query` after the engine produced its stream: collect, then
collapse. -/
def SchemaQuery (stream : List (Except String Json)) : Except String Json := do
  let results ← collectResults stream
  .ok (collapse results)

/-- `Schema.runQuery`: run the query, map Go `nil` (zero results, or a
single produced JSON `null`) to the `"no results found"` error, assert the
result is a JSON object, and otherwise fail with the
`"unexpected result type"` error. -/
def runQueryE (run : Except String (List Json)) : Except String Json := do
  let results ← run
  let result := collapse results
  if result = Json.null then .error "no results found"
  else
    match result with
    | .obj kvs => .ok (.obj kvs)
    | _ => .error "unexpected result type"

/-- `Schema.Type`: the predefined type query through `runQuery`. -/
def SchemaType (fuel : Nat) (doc : Json) (typeName : String) :
    Except String Json :=
  runQueryE (typeQueryRun fuel doc typeName)

/-- `Schema.Search`: the predefined search query through `runQuery`. -/
def SchemaSearch (test : String → String → Bool) (doc : Json)
    (pattern : String) : Except String Json :=
  runQueryE (searchQueryRun test doc pattern)

/-- `Schema.Mutation`: the predefined mutation query through `runQuery`. -/
def SchemaMutation (fuel : Nat) (doc : Json) (mutation : String) :
    Except String Json :=
  runQueryE (mutationQueryRun fuel doc mutation)

/-- Go map lookup `varMap[k]` for a map represented as its (unordered,
key-unique) list of entries. -/
def lookupVar (varMap : List (String × Json)) (k : String) : Json :=
  match varMap.find? (fun kv => kv.1 = k) with
  | some kv => kv.2
  | none => .null

/-- The variable extraction of `Schema.Query`: collect the map’s keys, sort
them (`sort.Strings`), and read the values back in sorted key order. -/
def extractBindings (varMap : List (String × Json)) :
    List String × List Json :=
  let varNames := (varMap.map Prod.fst).mergeSort (fun a b => decide (a ≤ b))
  (varNames, varNames.map (lookupVar varMap))

/-- `Schema.Query` with an abstract compiled-engine run function: the
program is compiled against the sorted variable-name list and run with the
values in the same order; the produced list is then collapsed. -/
def queryWithEngine (run : List String → List Json → List Json)
    (varMap : List (String × Json)) : Json :=
  collapse (run (extractBindings varMap).1 (extractBindings varMap).2)

/-- C1: a `NON_NULL` node formats its `ofType` and appends `!`, a `LIST`
node formats its `ofType` and wraps it in brackets, a terminal object node
uses its `name` falling back to `kind`, a non-object node is returned
unchanged; every encoded wrapper chain therefore renders as the canonical
bracket/bang string (e.g. `NON_NULL(LIST(NON_NULL(T)))` renders as
`[T!]!`). -/
theorem C1_formatType_canonical (t : TypeRef) (j : Json) (fuel n : Nat)
    (hwf : t.wfb = true) (hfuel : t.depth ≤ fuel) (hj : j.isObjB = false) :
    formatType fuel t.toJson = .ok (.str t.spec) ∧
    formatType (n + 1) j = .ok j := by
  refine ⟨formatType_toJson t fuel hwf hfuel, ?_⟩
  cases j with
  | obj kvs => simp [Json.isObjB] at hj
  | null => simp [formatType]
  | bool b => simp [formatType]
  | num m => simp [formatType]
  | str s => simp [formatType]
  | arr l => simp [formatType]

/-- C1 witness: the chain `NON_NULL(LIST(NON_NULL(T)))` formats to `[T!]!`,
and the non-object scalar `"x"` is returned unchanged. -/
theorem C1_witness :
    formatType 4
        (TypeRef.toJson
          (.nonNull (.list (.nonNull (.named (some "T") "OBJECT"))))) =
      .ok (.str "[T!]!") ∧
    formatType 1 (.str "x") = .ok (.str "x") := by
  have h := C1_formatType_canonical
    (.nonNull (.list (.nonNull (.named (some "T") "OBJECT"))))
    (.str "x") 4 0 (by decide) (by decide) (by decide)
  exact h

/-- If `f` succeeds with `g x` on every element, `mapME f` is `map g`. -/
theorem mapME_ok (f : α → Except String β) (g : α → β) :
    ∀ l : List α, (∀ x ∈ l, f x = .ok (g x)) → mapME f l = .ok (l.map g) := by
  intro l h
  induction l with
  | nil => rfl
  | cons x rest ih =>
    have hx : f x = .ok (g x) := h x (List.mem_cons_self x rest)
    have hrest := ih (fun y hy => h y (List.mem_cons_of_mem x hy))
    simp [mapME, hx, hrest, bindOkE]

/-- If `p` succeeds with `q x` on every element, `filterME p` is
`filter q`. -/
theorem filterME_ok (p : α → Except String Bool) (q : α → Bool) :
    ∀ l : List α, (∀ x ∈ l, p x = .ok (q x)) → filterME p l = .ok (l.filter q) := by
  intro l h
  induction l with
  | nil => rfl
  | cons x rest ih =>
    have hx : p x = .ok (q x) := h x (List.mem_cons_self x rest)
    have hrest := ih (fun y hy => h y (List.mem_cons_of_mem x hy))
    cases hq : q x <;> simp [filterME, hx, hrest, bindOkE, List.filter_cons, hq]

/-- A stream of pure values collects to exactly those values. -/
theorem collectResults_map_ok (vs : List Json) :
    collectResults (vs.map Except.ok) = .ok vs := by
  induction vs with
  | nil => rfl
  | cons v rest ih => simp [collectResults, ih, bindOkE]

/-- C2: the result collapser of `Schema.Query` maps an empty produced
sequence to the absent result (Go `nil`, JSON `null`), a one-element
sequence to that value itself unwrapped, and a longer sequence to the
ordered list of the values in production order; `Schema.Query` returns
exactly the collapse of the collected stream. -/
theorem C2_collapse_law :
    collapse [] = Json.null ∧
    (∀ v : Json, collapse [v] = v) ∧
    (∀ (v w : Json) (tl : List Json),
      collapse (v :: w :: tl) = Json.arr (v :: w :: tl)) ∧
    (∀ vs : List Json, SchemaQuery (vs.map Except.ok) = .ok (collapse vs)) := by
  refine ⟨rfl, fun v => rfl, fun v w tl => rfl, fun vs => ?_⟩
  simp [SchemaQuery, collectResults_map_ok, bindOkE]

/-- C8: a query producing exactly one literal `null` collapses to the same
result as a query producing nothing — `Schema.Query` returns Go `nil` in
both cases, and `Schema.runQuery` turns both into the not-found failure. -/
theorem C8_single_null_is_absent :
    SchemaQuery [Except.ok Json.null] = SchemaQuery [] ∧
    collapse [Json.null] = collapse [] ∧
    runQueryE (.ok [Json.null]) = .error "no results found" ∧
    runQueryE (.ok []) = .error "no results found" := by
  refine ⟨rfl, rfl, by decide, by decide⟩

/-- C10: when the produced sequence collapses to a value that is not a
single JSON object — two or more produced values (collapsed to a list), or
a single non-null non-object scalar — `Schema.runQuery` fails with the
`"unexpected result type"` error rather than returning the value; in
particular `Schema.Type` and `Schema.Mutation` fail this way whenever their
jq programs produce two or more values (e.g. duplicate names). -/
theorem C10_unexpected_result_type :
    (∀ (v w : Json) (tl : List Json),
      runQueryE (.ok (v :: w :: tl)) = .error "unexpected result type") ∧
    (∀ v : Json, v ≠ .null → v.isObjB = false →
      runQueryE (.ok [v]) = .error "unexpected result type") ∧
    (∀ (fuel : Nat) (doc : Json) (typeName : String) (v w : Json) (tl : List Json),
      typeQueryRun fuel doc typeName = .ok (v :: w :: tl) →
      SchemaType fuel doc typeName = .error "unexpected result type") ∧
    (∀ (fuel : Nat) (doc : Json) (m : String) (v w : Json) (tl : List Json),
      mutationQueryRun fuel doc m = .ok (v :: w :: tl) →
      SchemaMutation fuel doc m = .error "unexpected result type") := by
  have hmany : ∀ (v w : Json) (tl : List Json),
      runQueryE (.ok (v :: w :: tl)) = .error "unexpected result type" := by
    intro v w tl
    simp [runQueryE, collapse, bindOkE]
  refine ⟨hmany, ?_, ?_, ?_⟩
  · intro v hnull hobj
    cases v <;> simp_all [runQueryE, collapse, bindOkE, Json.isObjB]
  · intro fuel doc typeName v w tl h
    rw [SchemaType, h]
    exact hmany v w tl
  · intro fuel doc m v w tl h
    rw [SchemaMutation, h]
    exact hmany v w tl

/-- A document whose `types` list carries two entries with the same name. -/
def dupTypesDoc : Json :=
  .obj [("data", .obj [("__schema", .obj [("types", .arr
    [.obj [("name", .str "Dup")], .obj [("name", .str "Dup")]])])])]

/-- The value `typeQuery` produces for each of the two `Dup` entries. -/
def dupTypeResult : Json :=
  .obj [("type", .obj [("name", .str "Dup"), ("kind", .null),
    ("description", .null), ("fields", .null), ("inputFields", .null),
    ("enumValues", .null)])]

/-- A document whose `Mutation` type carries two fields with the same
name. -/
def dupMutationDoc : Json :=
  .obj [("data", .obj [("__schema", .obj [("types", .arr
    [.obj [("name", .str "Mutation"), ("fields", .arr
      [.obj [("name", .str "doIt"), ("args", .arr [])],
       .obj [("name", .str "doIt"), ("args", .arr [])]])]])])])]

/-- The value `mutationQuery` produces for each duplicate `doIt` field. -/
def dupMutationResult : Json :=
  .obj [("mutation", .obj [("name", .str "doIt"), ("description", .null),
    ("inputs", .arr [])])]

/-- C10 witness: duplicate type names make `Schema.Type` fail with
`"unexpected result type"`, duplicate mutation fields do the same for
`Schema.Mutation`, and a single non-object scalar result does too. -/
theorem C10_witness :
    SchemaType 0 dupTypesDoc "Dup" = .error "unexpected result type" ∧
    SchemaMutation 0 dupMutationDoc "doIt" = .error "unexpected result type" ∧
    runQueryE (.ok [Json.str "x"]) = .error "unexpected result type" := by
  refine ⟨C10_unexpected_result_type.2.2.1 0 dupTypesDoc "Dup"
      dupTypeResult dupTypeResult [] (by decide),
    C10_unexpected_result_type.2.2.2 0 dupMutationDoc "doIt"
      dupMutationResult dupMutationResult [] (by decide),
    C10_unexpected_result_type.2.1 (Json.str "x") (by decide) (by decide)⟩

/-- C4: the search query's description transform returns a description of
at most 100 characters (including exactly 100) unchanged, replaces a longer
description by its first 100 characters followed by `"..."`, and passes a
null description through unchanged. -/
theorem C4_truncation_boundary (s t : String)
    (hs : s.length ≤ 100) (ht : 100 < t.length) :
    truncDescription (.str s) = .ok (.str s) ∧
    truncDescription (.str t) =
      .ok (.str (String.mk (t.toList.take 100) ++ "...")) ∧
    truncDescription Json.null = .ok Json.null := by
  refine ⟨?_, ?_, by simp [truncDescription]⟩
  · have h100 : ¬ ((100 : Int) < (s.length : Int)) := by
      exact_mod_cast Nat.not_lt.mpr hs
    simp [truncDescription, jqLength, jqGtNum, bindOkE, h100]
  · have h100 : (100 : Int) < (t.length : Int) := by exact_mod_cast ht
    simp [truncDescription, jqLength, jqGtNum, jqSlice0, jqAdd, bindOkE, h100]

/-- C4 witness: a 100-character description is unchanged and a
101-character description is truncated to 100 characters plus `"..."`. -/
theorem C4_witness :
    truncDescription (.str (String.mk (List.replicate 100 'a'))) =
      .ok (.str (String.mk (List.replicate 100 'a'))) ∧
    truncDescription (.str (String.mk (List.replicate 101 'a'))) =
      .ok (.str (String.mk (List.replicate 100 'a') ++ "...")) := by
  have h := C4_truncation_boundary (String.mk (List.replicate 100 'a'))
    (String.mk (List.replicate 101 'a')) (by decide) (by decide)
  refine ⟨h.1, ?_⟩
  rw [h.2.1]
  decide

/-- On an object, the erroring field access agrees with the total one. -/
theorem Json.fieldE_of_isObj (t : Json) (k : String) (h : t.isObjB = true) :
    t.fieldE k = .ok (t.field k) := by
  cases t <;> simp_all [Json.isObjB, Json.fieldE, Json.field]

/-- A filter whose predicate rejects every element yields the empty list. -/
theorem filter_none (q : α → Bool) :
    ∀ l : List α, (∀ x ∈ l, q x = false) → l.filter q = [] := by
  intro l h
  induction l with
  | nil => rfl
  | cons x rest ih =>
    have hx := h x (List.mem_cons_self x rest)
    simp [List.filter_cons, hx,
      ih (fun y hy => h y (List.mem_cons_of_mem x hy))]

/-- C7: when no type in the document's type list carries the looked-up
name, the type query produces nothing, collapses to the absent result, and
`Schema.Type` surfaces the `"no results found"` error; likewise
`Schema.Mutation` fails with `"no results found"` when no field under the
`Mutation` type carries the requested name. -/
theorem C7_not_found (fuel : Nat) (doc : Json) (ts : List Json)
    (typeName mname : String)
    (hts : docTypes doc = .ok ts)
    (hobj : ∀ t ∈ ts, t.isObjB = true)
    (hname : ∀ t ∈ ts, t.field "name" ≠ .str typeName)
    (hmut : ∀ t ∈ ts, t.field "name" = .str "Mutation" →
      (t.field "fields").isArr = true ∧
      ∀ f ∈ (t.field "fields").elems,
        f.isObjB = true ∧ f.field "name" ≠ .str mname) :
    SchemaType fuel doc typeName = .error "no results found" ∧
    SchemaMutation fuel doc mname = .error "no results found" := by
  constructor
  · have hfilter := filterME_ok
      (fun t => do
        let n ← t.fieldE "name"
        .ok (decide (n = Json.str typeName)))
      (fun t => decide (t.field "name" = Json.str typeName)) ts
      (fun t ht => by simp only [Json.fieldE_of_isObj t _ (hobj t ht), bindOkE])
    have hemp : ts.filter
        (fun t => decide (t.field "name" = Json.str typeName)) = [] :=
      filter_none _ ts (fun t ht => by simp [hname t ht])
    have h1 : typeQueryRun fuel doc typeName = .ok [] := by
      unfold typeQueryRun
      rw [hts, bindOkE, hfilter, hemp, bindOkE]
      rfl
    unfold SchemaType
    rw [h1]
    decide
  · have hfilter := filterME_ok
      (fun t => do
        let n ← t.fieldE "name"
        .ok (decide (n = Json.str "Mutation")))
      (fun t => decide (t.field "name" = Json.str "Mutation")) ts
      (fun t ht => by simp only [Json.fieldE_of_isObj t _ (hobj t ht), bindOkE])
    have hmap := mapME_ok
      (fun t => do
        let fs ← t.fieldE "fields"
        jqIterate fs)
      (fun t => (t.field "fields").elems)
      (ts.filter (fun t => decide (t.field "name" = Json.str "Mutation")))
      (fun t ht => by
        obtain ⟨htmem, htq⟩ := List.mem_filter.mp ht
        have hnm : t.field "name" = Json.str "Mutation" := by
          simpa using htq
        obtain ⟨harr, _⟩ := hmut t htmem hnm
        simp only [Json.fieldE_of_isObj t _ (hobj t htmem), bindOkE]
        cases hfe : t.field "fields" <;>
          simp_all [Json.isArr, jqIterate, Json.elems])
    have hfilter2 := filterME_ok
      (fun f => do
        let n ← f.fieldE "name"
        .ok (decide (n = Json.str mname)))
      (fun f => decide (f.field "name" = Json.str mname))
      ((ts.filter (fun t =>
        decide (t.field "name" = Json.str "Mutation"))).map
          (fun t => (t.field "fields").elems)).flatten
      (fun f hf => by
        obtain ⟨l, hl, hfl⟩ := List.mem_flatten.mp hf
        obtain ⟨t, htmem2, rfl⟩ := List.mem_map.mp hl
        obtain ⟨htmem, htq⟩ := List.mem_filter.mp htmem2
        have hnm : t.field "name" = Json.str "Mutation" := by
          simpa using htq
        obtain ⟨hfo, _⟩ := (hmut t htmem hnm).2 f hfl
        simp only [Json.fieldE_of_isObj f _ hfo, bindOkE])
    have hemp2 : (((ts.filter (fun t =>
        decide (t.field "name" = Json.str "Mutation"))).map
          (fun t => (t.field "fields").elems)).flatten).filter
        (fun f => decide (f.field "name" = Json.str mname)) = [] := by
      apply filter_none
      intro f hf
      obtain ⟨l, hl, hfl⟩ := List.mem_flatten.mp hf
      obtain ⟨t, htmem2, rfl⟩ := List.mem_map.mp hl
      obtain ⟨htmem, htq⟩ := List.mem_filter.mp htmem2
      have hnm : t.field "name" = Json.str "Mutation" := by
        simpa using htq
      have := ((hmut t htmem hnm).2 f hfl).2
      simp [this]
    have h1 : mutationQueryRun fuel doc mname = .ok [] := by
      unfold mutationQueryRun
      rw [hts, bindOkE, hfilter, bindOkE, hmap, bindOkE, hfilter2, hemp2,
        bindOkE]
      rfl
    unfold SchemaMutation
    rw [h1]
    decide

/-- C7 witness: in a document whose types are `Mutation` (with one field
`createX`) and `Issue`, a type lookup for `Zzz` and a mutation lookup for
`createY` both fail with `"no results found"`. -/
theorem C7_witness :
    SchemaType 1
      (Json.obj [("data", .obj [("__schema", .obj [("types", .arr
        [.obj [("name", .str "Mutation"), ("fields", .arr
          [.obj [("name", .str "createX"), ("args", .arr [])]])],
         .obj [("name", .str "Issue"), ("kind", .str "OBJECT")]])])])])
      "Zzz" = .error "no results found" ∧
    SchemaMutation 1
      (Json.obj [("data", .obj [("__schema", .obj [("types", .arr
        [.obj [("name", .str "Mutation"), ("fields", .arr
          [.obj [("name", .str "createX"), ("args", .arr [])]])],
         .obj [("name", .str "Issue"), ("kind", .str "OBJECT")]])])])])
      "createY" = .error "no results found" :=
  C7_not_found 1
    (Json.obj [("data", .obj [("__schema", .obj [("types", .arr
      [.obj [("name", .str "Mutation"), ("fields", .arr
        [.obj [("name", .str "createX"), ("args", .arr [])]])],
       .obj [("name", .str "Issue"), ("kind", .str "OBJECT")]])])])])
    [.obj [("name", .str "Mutation"), ("fields", .arr
      [.obj [("name", .str "createX"), ("args", .arr [])]])],
     .obj [("name", .str "Issue"), ("kind", .str "OBJECT")]]
    "Zzz" "createY" (by decide) (by decide) (by decide) (by decide)

/-- The pure form of the search query's per-type match: the type's `name`
is a string matched by the abstract pattern predicate. -/
def isMatch (test : String → String → Bool) (pattern : String)
    (t : Json) : Bool :=
  match t.field "name" with
  | .str s => test pattern s
  | _ => false

/-- The pure form of the description truncation, on string-or-null
descriptions. -/
def truncPure (d : Json) : Json :=
  match d with
  | .str s =>
    if 100 < s.length then .str (String.mk (s.toList.take 100) ++ "...")
    else .str s
  | d => d

/-- The entry the search query emits for one matched type. -/
def searchResultEntry (t : Json) : Json :=
  .obj [("name", t.field "name"), ("kind", t.field "kind"),
        ("description", truncPure (t.field "description"))]

/-- On string-or-null input the effectful truncation agrees with the pure
one. -/
theorem truncDescription_ok (d : Json)
    (h : d = .null ∨ d.isStr = true) :
    truncDescription d = .ok (truncPure d) := by
  rcases h with rfl | h
  · simp [truncDescription, truncPure]
  · cases d <;> simp_all [Json.isStr]
    rename_i s
    by_cases h100 : 100 < s.length
    · have hi : (100 : Int) < (s.length : Int) := by exact_mod_cast h100
      simp [truncDescription, truncPure, jqLength, jqGtNum, jqSlice0, jqAdd,
        bindOkE, h100, hi]
    · have hi : ¬ ((100 : Int) < (s.length : Int)) := by exact_mod_cast h100
      simp [truncDescription, truncPure, jqLength, jqGtNum, bindOkE, h100, hi]

/-- On a well-formed type entry, one step of the search pipeline produces
exactly the matched entry (or nothing). -/
theorem searchSelectEntry_ok (test : String → String → Bool)
    (pattern : String) (t : Json) (h1 : t.isObjB = true)
    (h2 : (t.field "name").isStr = true)
    (h3 : t.field "description" = .null ∨
      (t.field "description").isStr = true) :
    searchSelectEntry test pattern t =
      .ok (if isMatch test pattern t then [searchResultEntry t] else []) := by
  unfold searchSelectEntry
  rw [Json.fieldE_of_isObj t _ h1, bindOkE]
  cases hn : t.field "name" with
  | str s =>
    rw [show jqTest test pattern (.str s) = .ok (test pattern s) from rfl,
      bindOkE]
    cases hm : test pattern s
    · simp [isMatch, hn, hm]
    · rw [Json.fieldE_of_isObj t _ h1, bindOkE,
        Json.fieldE_of_isObj t _ h1, bindOkE,
        truncDescription_ok _ h3, bindOkE]
      simp [isMatch, hn, hm, searchResultEntry]
  | null => rw [hn] at h2; simp [Json.isStr] at h2
  | bool b => rw [hn] at h2; simp [Json.isStr] at h2
  | num n => rw [hn] at h2; simp [Json.isStr] at h2
  | arr l => rw [hn] at h2; simp [Json.isStr] at h2
  | obj kvs => rw [hn] at h2; simp [Json.isStr] at h2

/-- Flattening per-element optional singletons is filtering then mapping. -/
theorem flatten_ite_singleton (p : α → Bool) (g : α → β) :
    ∀ l : List α,
      (l.map (fun t => if p t then [g t] else [])).flatten
        = (l.filter p).map g := by
  intro l
  induction l with
  | nil => rfl
  | cons t rest ih =>
    cases h : p t <;> simp [List.filter_cons, h, ih]

/-- C5: for every pattern the search query produces one object
`{count, pattern, results}` where `count` is the number of types whose name
matches, `pattern` is the echoed input, and `results` lists exactly the
matched entries in document order. -/
theorem C5_search_shape (test : String → String → Bool) (doc : Json)
    (pattern : String) (ts : List Json)
    (hts : docTypes doc = .ok ts)
    (hwf : ∀ t ∈ ts, t.isObjB = true ∧ (t.field "name").isStr = true ∧
      (t.field "description" = .null ∨
        (t.field "description").isStr = true)) :
    searchQueryRun test doc pattern = .ok [Json.obj
      [("count", .num ((ts.filter (isMatch test pattern)).length : Int)),
       ("pattern", .str pattern),
       ("results", .arr
         ((ts.filter (isMatch test pattern)).map searchResultEntry))]] := by
  have hmap := mapME_ok (searchSelectEntry test pattern)
    (fun t => if isMatch test pattern t then [searchResultEntry t] else [])
    ts
    (fun t ht => searchSelectEntry_ok test pattern t (hwf t ht).1
      (hwf t ht).2.1 (hwf t ht).2.2)
  unfold searchQueryRun
  rw [hts, bindOkE, hmap, bindOkE, flatten_ite_singleton]
  simp

/-- A three-type document for the search example. -/
def reviewDoc : Json :=
  .obj [("data", .obj [("__schema", .obj [("types", .arr
    [.obj [("name", .str "ReviewThread"), ("kind", .str "OBJECT"),
       ("description", .null)],
     .obj [("name", .str "ReviewComment"), ("kind", .str "OBJECT"),
       ("description", .null)],
     .obj [("name", .str "Issue"), ("kind", .str "OBJECT"),
       ("description", .null)]])])])]

/-- C5 witness: the pattern `^Review` (as the concrete prefix predicate)
over `ReviewThread`, `ReviewComment`, `Issue` yields count 2 with the two
matches in document order. -/
theorem C5_witness :
    searchQueryRun
      (fun _ s => decide (s.toList.take 6 = "Review".toList))
      reviewDoc "^Review" = .ok [Json.obj
      [("count", .num 2),
       ("pattern", .str "^Review"),
       ("results", .arr
         [.obj [("name", .str "ReviewThread"), ("kind", .str "OBJECT"),
            ("description", .null)],
          .obj [("name", .str "ReviewComment"), ("kind", .str "OBJECT"),
            ("description", .null)]])]] := by
  have h := C5_search_shape
    (fun _ s => decide (s.toList.take 6 = "Review".toList))
    reviewDoc "^Review"
    [.obj [("name", .str "ReviewThread"), ("kind", .str "OBJECT"),
       ("description", .null)],
     .obj [("name", .str "ReviewComment"), ("kind", .str "OBJECT"),
       ("description", .null)],
     .obj [("name", .str "Issue"), ("kind", .str "OBJECT"),
       ("description", .null)]]
    (by decide) (by decide)
  rw [h]
  decide

/-- `mergeSort` with the boolean string order produces a `≤`-sorted list. -/
theorem mergeSort_le_sorted (l : List String) :
    (l.mergeSort (fun a b => decide (a ≤ b))).Pairwise
      (fun a b => decide (a ≤ b) = true) := by
  apply List.sorted_mergeSort
  · intro a b c h1 h2
    simp only [decide_eq_true_eq] at *
    exact le_trans h1 h2
  · intro a b
    simpa using le_total a b

/-- The Prop-level form of the previous lemma. -/
theorem mergeSort_le_sorted_prop (l : List String) :
    List.Sorted (fun a b : String => a ≤ b)
      (l.mergeSort (fun a b => decide (a ≤ b))) :=
  (mergeSort_le_sorted l).imp (fun h => by simpa using h)

/-- In a key-unique association list, `find?` on a member's key returns
exactly that member. -/
theorem find?_key_unique (k : String) :
    ∀ (l : List (String × Json)), (l.map Prod.fst).Nodup →
      ∀ kv ∈ l, kv.1 = k →
        l.find? (fun x => decide (x.1 = k)) = some kv := by
  intro l
  induction l with
  | nil => intro _ kv h; cases h
  | cons hd tl ih =>
    intro hnd kv hmem hk
    rw [List.find?_cons]
    by_cases hh : hd.1 = k
    · have hkv : kv = hd := by
        rcases List.mem_cons.mp hmem with rfl | hmemtl
        · rfl
        · exfalso
          have hin : kv.1 ∈ tl.map Prod.fst :=
            List.mem_map_of_mem Prod.fst hmemtl
          rw [hk, ← hh] at hin
          exact (List.nodup_cons.mp (by simpa using hnd)).1 hin
      subst hkv
      simp [hh]
    · have hmemtl : kv ∈ tl := by
        rcases List.mem_cons.mp hmem with rfl | h
        · exact absurd hk hh
        · exact h
      have hndtl : (tl.map Prod.fst).Nodup :=
        (List.nodup_cons.mp (by simpa using hnd)).2
      simp [hh]
      exact ih hndtl kv hmemtl hk

/-- Go map lookup is invariant under reordering of a key-unique entry
list. -/
theorem lookupVar_perm (v1 v2 : List (String × Json)) (hperm : v1.Perm v2)
    (hnd : (v1.map Prod.fst).Nodup) (k : String) :
    lookupVar v1 k = lookupVar v2 k := by
  have hnd2 : (v2.map Prod.fst).Nodup := (hperm.map Prod.fst).nodup_iff.mp hnd
  unfold lookupVar
  cases hf : v1.find? (fun kv => decide (kv.1 = k)) with
  | some kv =>
    have hmem : kv ∈ v1 := List.mem_of_find?_eq_some hf
    have hk : kv.1 = k := by
      have := List.find?_some hf
      simpa using this
    rw [find?_key_unique k v2 hnd2 kv (hperm.mem_iff.mp hmem) hk]
  | none =>
    rw [List.find?_eq_none.mpr (fun kv hkv => by
      have := List.find?_eq_none.mp hf kv (hperm.mem_iff.mpr hkv)
      simpa using this)]

/-- C9: binding the same name-to-value map in different insertion orders
produces identical compiled-program bindings (names sorted, values read in
sorted-name order) and therefore identical query results for any engine. -/
theorem C9_binding_determinism
    (run : List String → List Json → List Json)
    (v1 v2 : List (String × Json))
    (hperm : v1.Perm v2) (hnd : (v1.map Prod.fst).Nodup) :
    extractBindings v1 = extractBindings v2 ∧
    queryWithEngine run v1 = queryWithEngine run v2 := by
  have hband : extractBindings v1 = extractBindings v2 := by
    have hkeys : (v1.map Prod.fst).Perm (v2.map Prod.fst) :=
      hperm.map Prod.fst
    have hnames : (v1.map Prod.fst).mergeSort (fun a b => decide (a ≤ b))
        = (v2.map Prod.fst).mergeSort (fun a b => decide (a ≤ b)) := by
      haveI : IsAntisymm String (fun a b : String => a ≤ b) :=
        ⟨fun a b h1 h2 => le_antisymm h1 h2⟩
      exact List.eq_of_perm_of_sorted
        (((List.mergeSort_perm _ _).trans hkeys).trans
          (List.mergeSort_perm _ _).symm)
        (mergeSort_le_sorted_prop _) (mergeSort_le_sorted_prop _)
    have hfun : lookupVar v1 = lookupVar v2 :=
      funext (lookupVar_perm v1 v2 hperm hnd)
    simp only [extractBindings, hnames, hfun]
  exact ⟨hband, by simp only [queryWithEngine, hband]⟩

/-- C9 witness: the two insertion orders of `{a ↦ 1, b ↦ 2}` extract the
same sorted bindings and give any engine the same collapsed result. -/
theorem C9_witness :
    extractBindings [("a", Json.num 1), ("b", Json.num 2)] =
      extractBindings [("b", Json.num 2), ("a", Json.num 1)] ∧
    queryWithEngine (fun _ vals => vals)
        [("a", Json.num 1), ("b", Json.num 2)] =
      queryWithEngine (fun _ vals => vals)
        [("b", Json.num 2), ("a", Json.num 1)] :=
  C9_binding_determinism (fun _ vals => vals)
    [("a", Json.num 1), ("b", Json.num 2)]
    [("b", Json.num 2), ("a", Json.num 1)]
    (by decide) (by decide)

/-- A document with one type `tname` carrying one field `fname` of
type-reference `tr`, in introspection shape. -/
def mkFieldSearchDoc (tname fname : String) (tr : TypeRef) : Json :=
  .obj [("data", .obj [("__schema", .obj [("types", .arr
    [.obj [("name", .str tname), ("kind", .str "OBJECT"),
       ("fields", .arr [.obj [("name", .str fname), ("description", .null),
         ("type", tr.toJson)]])]])])])]

/-- Chains of at most one wrapper over a named terminal with a present
name (and non-wrapper terminal kind): exactly the shapes on which the
one-level rendering of `fieldSearchQuery` agrees with the recursive
formatter. -/
def TypeRef.shallowB : TypeRef → Bool
  | .named (some _) kind =>
    decide (kind ≠ "NON_NULL") && decide (kind ≠ "LIST")
  | .nonNull (.named (some _) kind) =>
    decide (kind ≠ "NON_NULL") && decide (kind ≠ "LIST")
  | .list (.named (some _) kind) =>
    decide (kind ≠ "NON_NULL") && decide (kind ≠ "LIST")
  | _ => false

/-- C6 counterexample: for a field of type
`NON_NULL(LIST(NON_NULL(String)))` the field-search query emits the type
string `"!"` (its inline rendering unwraps only one level, and jq null
absorbs into string concatenation), while the recursive type-signature
formatter produces `"[String!]!"` — so the emitted entry does not carry the
canonical formatted type for arbitrary nesting. -/
theorem C6_counterexample :
    fieldSearchQueryRun (fun _ _ => true)
      (mkFieldSearchDoc "T" "f"
        (.nonNull (.list (.nonNull (.named (some "String") "SCALAR")))))
      "f" =
      .ok [.arr [.obj [("type", .str "T"), ("kind", .str "OBJECT"),
        ("fields", .arr [.obj [("name", .str "f"), ("type", .str "!"),
          ("description", .null)]])]]] ∧
    formatType 4
      (TypeRef.toJson
        (.nonNull (.list (.nonNull (.named (some "String") "SCALAR"))))) =
      .ok (.str "[String!]!") ∧
    Json.str "!" ≠ Json.str "[String!]!" := by
  refine ⟨by decide, by decide, by decide⟩

/-- C6 (amended): the field-search query renders a field's type by a single
unwrapping step — `NON_NULL` yields `ofType.name + "!"`, `LIST` yields
`"[" + (ofType.name // ofType.kind) + "]"`, anything else yields
`.type.name` — which coincides with the recursive formatter's canonical
string exactly on chains of at most one wrapper over a name-carrying
terminal; on such chains the emitted entry's type is that canonical
string. -/
theorem C6_field_search_one_level (test : String → String → Bool)
    (pattern tname fname : String) (tr : TypeRef)
    (hsh : tr.shallowB = true) (hm : test pattern fname = true) :
    fieldSearchQueryRun test (mkFieldSearchDoc tname fname tr) pattern =
      .ok [.arr [.obj [("type", .str tname), ("kind", .str "OBJECT"),
        ("fields", .arr [.obj [("name", .str fname), ("type", .str tr.spec),
          ("description", .null)]])]]] ∧
    formatType 2 tr.toJson = .ok (.str tr.spec) := by
  cases tr with
  | nonNull t =>
    cases t with
    | named name kind =>
      cases name with
      | some n =>
        simp only [TypeRef.shallowB, Bool.and_eq_true,
          decide_eq_true_eq] at hsh
        refine ⟨?_, formatType_toJson _ 2
          (by simp [TypeRef.wfb, hsh.1, hsh.2]) (by simp [TypeRef.depth])⟩
        simp [fieldSearchQueryRun, mkFieldSearchDoc, docTypes, Json.fieldE,
          jqIterate, bindOkE, mapME, fieldSearchType, jqIterateOpt,
          fieldSearchEntry, jqTest, hm, fieldSearchEntryType,
          TypeRef.toJson, jqAdd, jqLength, jqGtNum, Json.truthy,
          TypeRef.spec, filterME]
      | none => simp [TypeRef.shallowB] at hsh
    | nonNull t2 => simp [TypeRef.shallowB] at hsh
    | list t2 => simp [TypeRef.shallowB] at hsh
  | list t =>
    cases t with
    | named name kind =>
      cases name with
      | some n =>
        simp only [TypeRef.shallowB, Bool.and_eq_true,
          decide_eq_true_eq] at hsh
        refine ⟨?_, formatType_toJson _ 2
          (by simp [TypeRef.wfb, hsh.1, hsh.2]) (by simp [TypeRef.depth])⟩
        simp [fieldSearchQueryRun, mkFieldSearchDoc, docTypes, Json.fieldE,
          jqIterate, bindOkE, mapME, fieldSearchType, jqIterateOpt,
          fieldSearchEntry, jqTest, hm, fieldSearchEntryType,
          TypeRef.toJson, jqAdd, jqLength, jqGtNum, Json.truthy,
          TypeRef.spec, filterME]
      | none => simp [TypeRef.shallowB] at hsh
    | nonNull t2 => simp [TypeRef.shallowB] at hsh
    | list t2 => simp [TypeRef.shallowB] at hsh
  | named name kind =>
    cases name with
    | some n =>
      simp only [TypeRef.shallowB, Bool.and_eq_true,
        decide_eq_true_eq] at hsh
      refine ⟨?_, formatType_toJson _ 2
        (by simp [TypeRef.wfb, hsh.1, hsh.2]) (by simp [TypeRef.depth])⟩
      simp [fieldSearchQueryRun, mkFieldSearchDoc, docTypes, Json.fieldE,
        jqIterate, bindOkE, mapME, fieldSearchType, jqIterateOpt,
        fieldSearchEntry, jqTest, hm, fieldSearchEntryType,
        TypeRef.toJson, jqAdd, jqLength, jqGtNum, Json.truthy,
        TypeRef.spec, filterME, hsh.1, hsh.2]
    | none => simp [TypeRef.shallowB] at hsh

/-- C6 witness (for the amended claim): a field `url` of type
`NON_NULL(String)` is emitted with the canonical type string `String!`. -/
theorem C6_witness :
    fieldSearchQueryRun (fun _ _ => true)
      (mkFieldSearchDoc "T" "url"
        (.nonNull (.named (some "String") "SCALAR"))) "url" =
      .ok [.arr [.obj [("type", .str "T"), ("kind", .str "OBJECT"),
        ("fields", .arr [.obj [("name", .str "url"),
          ("type", .str "String!"), ("description", .null)]])]]] ∧
    formatType 2
      (TypeRef.toJson (.nonNull (.named (some "String") "SCALAR"))) =
      .ok (.str "String!") :=
  C6_field_search_one_level (fun _ _ => true) "x" "T" "url"
    (.nonNull (.named (some "String") "SCALAR")) (by decide) rfl

/-- An input-object field as the claim quantifies over it: a name, an
optional description, and a type-reference chain. -/
structure InputField where
  name : String
  description : Option String
  ty : TypeRef

/-- Encoding of Go's optional strings: absent is JSON `null`. -/
def optStr : Option String → Json
  | some s => .str s
  | none => .null

/-- Introspection encoding of an input field. -/
def InputField.toJson (f : InputField) : Json :=
  .obj [("name", .str f.name), ("description", optStr f.description),
        ("type", f.ty.toJson)]

/-- Introspection encoding of an input-object type. -/
def mkInputTypeJson (iname : String) (ifs : List InputField) : Json :=
  .obj [("name", .str iname), ("kind", .str "INPUT_OBJECT"),
        ("inputFields", .arr (ifs.map InputField.toJson))]

/-- The argument type shape of the synthesized branch: one `NON_NULL` (when
required) or `LIST` wrapper whose `ofType` carries the input-object
name. -/
def wrapArg (areq : Bool) (iname ik : String) : TypeRef :=
  if areq then .nonNull (.named (some iname) ik)
  else .list (.named (some iname) ik)

/-- A document with a `Mutation` type holding one field of one argument,
plus the input-object type that argument references. -/
def mkMutationDoc (mname : String) (mdesc : Option String)
    (aname : String) (adesc : Option String) (argTy : TypeRef)
    (iname : String) (ifs : List InputField) : Json :=
  .obj [("data", .obj [("__schema", .obj [("types", .arr
    [.obj [("name", .str "Mutation"), ("kind", .str "OBJECT"),
       ("fields", .arr [.obj [("name", .str mname),
         ("description", optStr mdesc),
         ("args", .arr [.obj [("name", .str aname),
           ("description", optStr adesc), ("type", argTy.toJson)]])]])],
     mkInputTypeJson iname ifs])])])]

/-- The expected bullet line for one input field: name, canonical type,
`" (required)"` exactly when the chain root is `NON_NULL`, and the
description indented on a continuation line when present. -/
def bulletSpec (f : InputField) : String :=
  (((("- " ++ f.name) ++ ": ") ++ f.ty.spec) ++
    (if f.ty.isNonNull then " (required)" else "")) ++
  (match f.description with
   | some d => "\n  " ++ d
   | none => "")

/-- Join of a list of lines with a separator (the pure form of jq
`join`). -/
def joinSpec (sep : String) : List String → String
  | [] => ""
  | [s] => s
  | s :: t :: rest => s ++ sep ++ joinSpec sep (t :: rest)

/-- The expected synthesized description: the argument's own description
(absent contributes nothing), a header line naming the input object, and
the joined bullet lines. -/
def synthDesc (adesc : Option String) (iname : String)
    (ifs : List InputField) : String :=
  match adesc with
  | some a =>
    (((a ++ "\n\nInput object '") ++ iname) ++
      "' has the following fields:\n") ++
    joinSpec "\n" (ifs.map bulletSpec)
  | none =>
    (("\n\nInput object '" ++ iname) ++ "' has the following fields:\n") ++
    joinSpec "\n" (ifs.map bulletSpec)

/-- jq `join` over produced string values is the pure join. -/
theorem joinStrs_map_str (sep : String) :
    ∀ l : List String, joinStrs sep (l.map Json.str) = .ok (joinSpec sep l) := by
  intro l
  induction l with
  | nil => rfl
  | cons s rest ih =>
    cases rest with
    | nil => rfl
    | cons t more =>
      rw [List.map_cons] at ih
      simp [joinStrs, joinSpec, toJoinStr, bindOkE, ih]

/-- One bullet line of the synthesized description, computed from the
encoded input field. -/
theorem bulletLine_ok (fuel : Nat) (f : InputField)
    (hwf : f.ty.wfb = true) (hd : f.ty.depth ≤ fuel) :
    bulletLine fuel f.toJson = .ok (.str (bulletSpec f)) := by
  cases f with
  | mk fname fdesc fty =>
    cases fty with
    | nonNull t =>
      have hft := formatType_toJson (TypeRef.nonNull t) fuel
        (by simpa using hwf) (by simpa using hd)
      simp only [TypeRef.toJson] at hft
      cases fdesc <;>
        simp [bulletLine, InputField.toJson, Json.fieldE, bindOkE, optStr,
          TypeRef.toJson, hft, jqAdd, Json.truthy, bulletSpec,
          TypeRef.isNonNull, String.append_assoc]
    | list t =>
      have hft := formatType_toJson (TypeRef.list t) fuel
        (by simpa using hwf) (by simpa using hd)
      simp only [TypeRef.toJson] at hft
      cases fdesc <;>
        simp [bulletLine, InputField.toJson, Json.fieldE, bindOkE, optStr,
          TypeRef.toJson, hft, jqAdd, Json.truthy, bulletSpec,
          TypeRef.isNonNull, String.append_assoc]
    | named nm kind =>
      have hft := formatType_toJson (TypeRef.named nm kind) fuel
        (by simpa using hwf) (by simpa using hd)
      simp only [TypeRef.toJson] at hft
      have hk : kind ≠ "NON_NULL" := by
        have hwf2 : (TypeRef.named nm kind).wfb = true := by simpa using hwf
        simp only [TypeRef.wfb, Bool.and_eq_true, decide_eq_true_eq] at hwf2
        exact hwf2.1
      cases nm <;> cases fdesc <;>
        simp only [TypeRef.toJson] at hft <;>
        simp [bulletLine, InputField.toJson, Json.fieldE, bindOkE, optStr,
          TypeRef.toJson, hft, jqAdd, Json.truthy, bulletSpec,
          TypeRef.isNonNull, hk, String.append_assoc]

/-- The bullet pipeline over a whole encoded input-field list. -/
theorem bullets_ok (fuel : Nat) :
    ∀ l : List InputField,
      (∀ f ∈ l, f.ty.wfb = true ∧ f.ty.depth ≤ fuel) →
      mapME (bulletLine fuel) (l.map InputField.toJson)
        = .ok (l.map (fun f => Json.str (bulletSpec f))) := by
  intro l
  induction l with
  | nil => intro _; rfl
  | cons f rest ih =>
    intro hl
    have h1 := hl f (List.mem_cons_self f rest)
    simp only [List.map_cons, mapME,
      bulletLine_ok fuel f h1.1 h1.2, bindOkE,
      ih (fun g hg => hl g (List.mem_cons_of_mem f hg))]

set_option maxHeartbeats 2000000 in
/-- C3: for a `Mutation` field whose sole argument wraps (one
`NON_NULL`/`LIST` layer) an input-object type present in the schema, the
mutation query returns exactly one input descriptor; its description is the
synthesized string (argument description, header line, one bullet per input
field with `(required)` exactly for `NON_NULL` fields and indented
description when present), its type is the canonical formatted argument
type, and its required flag reflects the argument's `NON_NULL` root. -/
theorem C3_mutation_input_synthesis (fuel : Nat)
    (mname aname iname ik : String) (mdesc adesc : Option String)
    (areq : Bool) (ifs : List InputField)
    (hiname : iname ≠ "Mutation") (hik1 : ik ≠ "NON_NULL")
    (hik2 : ik ≠ "LIST") (hfuel : 2 ≤ fuel)
    (hifs : ∀ f ∈ ifs, f.ty.wfb = true ∧ f.ty.depth ≤ fuel) :
    mutationQueryRun fuel
      (mkMutationDoc mname mdesc aname adesc (wrapArg areq iname ik) iname
        ifs) mname =
    .ok [.obj [("mutation", .obj [("name", .str mname),
      ("description", optStr mdesc),
      ("inputs", .arr [.obj [("name", .str aname),
        ("type", .str (wrapArg areq iname ik).spec),
        ("description", .str (synthDesc adesc iname ifs)),
        ("required", .bool areq)]])])]] := by
  have hiname2 : "Mutation" ≠ iname := Ne.symm hiname
  have hwfA : (wrapArg areq iname ik).wfb = true := by
    cases areq <;> simp [wrapArg, TypeRef.wfb, hik1, hik2]
  have hdA : (wrapArg areq iname ik).depth ≤ fuel := by
    cases areq <;> simp [wrapArg, TypeRef.depth] <;> omega
  have hfmt := formatType_toJson (wrapArg areq iname ik) fuel hwfA hdA
  have hbul := bullets_ok fuel ifs hifs
  have hjoin : jqJoin "\n" (ifs.map (fun f => Json.str (bulletSpec f)))
      = .ok (.str (joinSpec "\n" (ifs.map bulletSpec))) := by
    have hj := joinStrs_map_str "\n" (ifs.map bulletSpec)
    rw [List.map_map] at hj
    simp only [Function.comp_def] at hj
    simp [jqJoin, hj, bindOkE]
  cases areq <;> cases adesc <;>
    simp only [wrapArg, if_true, if_false, Bool.false_eq_true] at hfmt ⊢ <;>
    simp only [TypeRef.toJson] at hfmt <;>
    simp [mutationQueryRun, mkMutationDoc, mkInputTypeJson, docTypes,
      Json.fieldE, jqIterate, bindOkE, filterME, mapME, mutationOutput,
      jqIndex, TypeRef.toJson, Json.truthy, jqAdd, hbul, hjoin, hfmt,
      hiname, hiname2, optStr, synthDesc, TypeRef.spec,
      String.append_assoc]

/-- C3 witness: `createIssue` whose sole argument `input` wraps the input
object `CreateIssueInput` with one required and one optional field yields
exactly one input descriptor whose synthesized description carries two
bullet lines, one marked `(required)`. -/
theorem C3_witness :
    mutationQueryRun 2
      (mkMutationDoc "createIssue" (some "Creates an issue.") "input"
        (some "Input for createIssue")
        (wrapArg true "CreateIssueInput" "INPUT_OBJECT")
        "CreateIssueInput"
        [⟨"repositoryId", some "The repo id.",
          .nonNull (.named (some "ID") "SCALAR")⟩,
         ⟨"body", none, .named (some "String") "SCALAR"⟩])
      "createIssue" =
    .ok [.obj [("mutation", .obj [("name", .str "createIssue"),
      ("description", .str "Creates an issue."),
      ("inputs", .arr [.obj [("name", .str "input"),
        ("type", .str "CreateIssueInput!"),
        ("description", .str ("Input for createIssue" ++
          "\n\nInput object 'CreateIssueInput' has the following fields:" ++
          "\n- repositoryId: ID! (required)\n  The repo id." ++
          "\n- body: String")),
        ("required", .bool true)]])])]] := by
  have h := C3_mutation_input_synthesis 2 "createIssue" "input"
    "CreateIssueInput" "INPUT_OBJECT" (some "Creates an issue.")
    (some "Input for createIssue") true
    [⟨"repositoryId", some "The repo id.",
      .nonNull (.named (some "ID") "SCALAR")⟩,
     ⟨"body", none, .named (some "String") "SCALAR"⟩]
    (by decide) (by decide) (by decide) (by decide) (by decide)
  rw [h]
  decide
